import Mathlib

/-!
Verification development for the muscle-analysis app's request orchestration
and caching core: the retrying API client, response cache, request queue and
truncated-JSON repair routine.  Each TypeScript function of the core is
shallowly embedded as an executable Lean definition; machine timestamps and
millisecond durations are modelled as naturals, JS numbers appearing in
delays as rationals, and the 32-bit signed wrap of the string hash as
explicit arithmetic modulo 2^32.
-/

namespace Muscle

/-! ### JSON values and a model of JSON.parse

`Json` is the abstract syntax of JSON documents; `jsonParse` is a fuel-based
recursive-descent parser modelling the strict `JSON.parse` grammar: the four
whitespace characters, `null`/`true`/`false`, strings with the standard
escapes, numbers without leading zeros, arrays and objects.  Numbers are kept
exact as rationals (all numbers appearing in the verified scenarios are small
integers, where double semantics and rational semantics agree).
-/

/-- Exact representation of a parsed JSON number: the value is
`mant * 10 ^ exp10`.  All numbers in the verified scenarios are small
integers, where this exact semantics and IEEE double semantics agree. -/
structure JNum where
  mant : Int
  exp10 : Int
deriving DecidableEq

/-- Rational value denoted by a parsed JSON number. -/
def JNum.toRat (n : JNum) : ℚ := (n.mant : ℚ) * (10 : ℚ) ^ n.exp10

/-- Executable test for `k ≤ value` on a parsed JSON number. -/
def JNum.intLe (k : Int) (n : JNum) : Bool :=
  if 0 ≤ n.exp10 then k ≤ n.mant * 10 ^ n.exp10.toNat
  else k * 10 ^ (-n.exp10).toNat ≤ n.mant

/-- Executable test for `value ≤ k` on a parsed JSON number. -/
def JNum.leInt (n : JNum) (k : Int) : Bool :=
  if 0 ≤ n.exp10 then n.mant * 10 ^ n.exp10.toNat ≤ k
  else n.mant ≤ k * 10 ^ (-n.exp10).toNat

inductive Json where
  | null : Json
  | bool (b : Bool) : Json
  | num (q : JNum) : Json
  | str (s : String) : Json
  | arr (elems : List Json) : Json
  | obj (members : List (String × Json)) : Json

/-- Opening curly brace character, written via its code point. -/
def braceOpen : Char := '\x7b'

/-- Closing curly brace character, written via its code point. -/
def braceClose : Char := '\x7d'

/-- The four whitespace characters accepted between JSON tokens. -/
def isJsonWs (c : Char) : Bool := c = ' ' || c = '\t' || c = '\n' || c = '\r'

/-- Drop leading JSON whitespace. -/
def skipWs (l : List Char) : List Char := l.dropWhile isJsonWs

/-- Value of a hexadecimal digit character. -/
def hexVal (c : Char) : Option Nat :=
  if '0' ≤ c ∧ c ≤ '9' then some (c.toNat - 48)
  else if 'a' ≤ c ∧ c ≤ 'f' then some (c.toNat - 87)
  else if 'A' ≤ c ∧ c ≤ 'F' then some (c.toNat - 55)
  else none

/-- Single-character string escapes of JSON. -/
def escChar (e : Char) : Option Char :=
  if e = '"' ∨ e = '\\' ∨ e = '/' then some e
  else if e = 'b' then some '\x08'
  else if e = 'f' then some '\x0c'
  else if e = 'n' then some '\n'
  else if e = 'r' then some '\r'
  else if e = 't' then some '\t'
  else none

/-- Parse the body of a JSON string after the opening quote; returns the
decoded characters and the remainder after the closing quote. -/
def parseJStr : List Char → Option (List Char × List Char)
  | [] => none
  | '"' :: r => some ([], r)
  | '\\' :: 'u' :: h1 :: h2 :: h3 :: h4 :: r3 =>
    match hexVal h1, hexVal h2, hexVal h3, hexVal h4 with
    | some a, some b, some c, some d =>
      (parseJStr r3).map (fun p => (Char.ofNat (((a * 16 + b) * 16 + c) * 16 + d) :: p.1, p.2))
    | _, _, _, _ => none
  | '\\' :: e :: r2 =>
    match escChar e with
    | some ch => (parseJStr r2).map (fun p => (ch :: p.1, p.2))
    | none => none
  | c :: r =>
    if c.toNat < 32 then none
    else (parseJStr r).map (fun p => (c :: p.1, p.2))

/-- Numeric value of a digit string. -/
def digitsToNat (ds : List Char) : Nat := ds.foldl (fun a c => a * 10 + (c.toNat - 48)) 0

/-- Parse an optional exponent part; `some (0, l)` when no exponent marker is
present, `none` when a marker is present but malformed. -/
def parseExp : List Char → Option (Int × List Char)
  | [] => some (0, [])
  | c :: r =>
    if c = 'e' ∨ c = 'E' then
      let sr : Int × List Char :=
        match r with
        | '+' :: rr => (1, rr)
        | '-' :: rr => (-1, rr)
        | _ => (1, r)
      let eDs := sr.2.takeWhile Char.isDigit
      if eDs = [] then none
      else some (sr.1 * (digitsToNat eDs : Int), sr.2.dropWhile Char.isDigit)
    else some (0, c :: r)

/-- Parse a JSON number per the strict grammar: optional minus, integer part
without leading zeros, optional fraction, optional exponent. -/
def parseNumber (l : List Char) : Option (JNum × List Char) :=
  let sl : Bool × List Char := match l with | '-' :: r => (true, r) | _ => (false, l)
  let intDs := sl.2.takeWhile Char.isDigit
  let l2 := sl.2.dropWhile Char.isDigit
  if intDs = [] then none
  else if 1 < intDs.length ∧ intDs.head? = some '0' then none
  else
    let fr : List Char × List Char :=
      match l2 with
      | '.' :: r => (r.takeWhile Char.isDigit, r.dropWhile Char.isDigit)
      | _ => ([], l2)
    if l2.head? = some '.' ∧ fr.1 = [] then none
    else
      match parseExp fr.2 with
      | none => none
      | some (e, l4) =>
        let mag : Int := (digitsToNat intDs : Int) * 10 ^ fr.1.length + (digitsToNat fr.1 : Int)
        some (⟨if sl.1 then -mag else mag, e - fr.1.length⟩, l4)

mutual

/-- Parse one JSON value starting at the head of the input (no leading
whitespace); fuel bounds the recursion depth. -/
def parseValue : Nat → List Char → Option (Json × List Char)
  | 0, _ => none
  | fuel + 1, l =>
    match l with
    | [] => none
    | 'n' :: 'u' :: 'l' :: 'l' :: r => some (.null, r)
    | 't' :: 'r' :: 'u' :: 'e' :: r => some (.bool true, r)
    | 'f' :: 'a' :: 'l' :: 's' :: 'e' :: r => some (.bool false, r)
    | '"' :: r => (parseJStr r).map (fun p => (.str (String.mk p.1), p.2))
    | '[' :: r =>
      match skipWs r with
      | ']' :: r2 => some (.arr [], r2)
      | r1 => (parseElems fuel r1).map (fun p => (.arr p.1, p.2))
    | c :: r =>
      if c = braceOpen then
        match skipWs r with
        | [] => none
        | b :: r2 =>
          if b = braceClose then some (.obj [], r2)
          else (parseMembers fuel (b :: r2)).map (fun p => (.obj p.1, p.2))
      else (parseNumber (c :: r)).map (fun p => (.num p.1, p.2))

/-- Parse the comma-separated elements of a nonempty array up to `]`. -/
def parseElems : Nat → List Char → Option (List Json × List Char)
  | 0, _ => none
  | fuel + 1, l =>
    match parseValue fuel l with
    | none => none
    | some (v, r) =>
      match skipWs r with
      | ',' :: r2 => (parseElems fuel (skipWs r2)).map (fun p => (v :: p.1, p.2))
      | c :: r2 => if c = ']' then some ([v], r2) else none
      | [] => none

/-- Parse the comma-separated members of a nonempty object up to the closing
brace. -/
def parseMembers : Nat → List Char → Option (List (String × Json) × List Char)
  | 0, _ => none
  | fuel + 1, l =>
    match l with
    | '"' :: r =>
      match parseJStr r with
      | none => none
      | some (ks, r1) =>
        match skipWs r1 with
        | ':' :: r2 =>
          match parseValue fuel (skipWs r2) with
          | none => none
          | some (v, r3) =>
            match skipWs r3 with
            | ',' :: r4 => (parseMembers fuel (skipWs r4)).map (fun p => ((String.mk ks, v) :: p.1, p.2))
            | c :: r4 => if c = braceClose then some ([(String.mk ks, v)], r4) else none
            | [] => none
        | _ => none
    | _ => none

end

/-- Model of `JSON.parse`: parse a complete document, requiring only
whitespace to remain. -/
def jsonParse (s : String) : Option Json :=
  let l := skipWs s.data
  match parseValue (2 * l.length + 2) l with
  | some (v, r) => if skipWs r = [] then some v else none
  | none => none

/-! ### FireworksAIService.parseResponse and the truncated-JSON repair

The service locates a brace-delimited span with the greedy regex
`\x7b[\s\S]*\x7d`, checks validity with `JSON.parse`, and on failure runs
`fixTruncatedJSON`: append one closing brace per unmatched opening brace,
then one closing bracket per unmatched opening bracket, then strip every
comma standing immediately (modulo whitespace) before a closing brace or
bracket, and as a last resort truncate to the longest prefix ending in a
closing brace followed only by whitespace.
-/

/-- Model of `isValidJSON`: whether `JSON.parse` succeeds. -/
def isValidJSON (s : String) : Bool := (jsonParse s).isSome

/-- Model of the regex match `contentStr.match(/\x7b[\s\S]*\x7d/)`: the span
from the first opening brace to the last closing brace after it, if any. -/
def firstBraceMatch (l : List Char) : Option (List Char) :=
  match l.dropWhile (fun c => ¬ c = braceOpen) with
  | [] => none
  | o :: rest =>
    match rest.reverse.dropWhile (fun c => ¬ c = braceClose) with
    | [] => none
    | rkeep => some (o :: rkeep.reverse)

/-- Fuel-based scan implementing the single-pass global replacement
`cleaned.replace(/,(\s*[\x7d\]])/g, "$1")`: a comma followed (after optional
whitespace) by a closing brace or bracket is dropped, scanning resuming after
the bracket.  The fuel only drives structural recursion; it starts at the
list length, which every branch strictly dominates. -/
def stripTCAux : Nat → List Char → List Char
  | 0, l => l
  | _ + 1, [] => []
  | fuel + 1, ',' :: rest =>
    match rest.dropWhile Char.isWhitespace with
    | b :: r3 =>
      if b = braceClose ∨ b = ']' then
        rest.takeWhile Char.isWhitespace ++ b :: stripTCAux fuel r3
      else ',' :: stripTCAux fuel rest
    | [] => ',' :: rest
  | fuel + 1, c :: rest => c :: stripTCAux fuel rest

/-- Model of the trailing-comma removal pass of `fixTruncatedJSON`. -/
def stripTrailingCommas (l : List Char) : List Char := stripTCAux l.length l

/-- Model of `String.prototype.trim`: remove leading and trailing
whitespace. -/
def trimChars (l : List Char) : List Char :=
  ((l.dropWhile Char.isWhitespace).reverse.dropWhile Char.isWhitespace).reverse

/-- Model of the regex match `cleaned.match(/^.*\x7d(?=\s*$)/s)`: the prefix
up to the last closing brace, provided only whitespace follows it. -/
def lastCompleteMatch (l : List Char) : Option (List Char) :=
  match l.reverse.dropWhile Char.isWhitespace with
  | b :: r => if b = braceClose then some ((b :: r).reverse) else none
  | [] => none

/-- Model of `FireworksAIService.fixTruncatedJSON`: trim, append the missing
closing braces, then the missing closing brackets, strip trailing commas, and
if still invalid truncate at the last closing brace followed only by
whitespace. -/
def fixTruncatedJSON (jsonString : String) : String :=
  let cleaned0 := trimChars jsonString.data
  let openBraces := cleaned0.count braceOpen
  let closeBraces := cleaned0.count braceClose
  let cleaned1 := cleaned0 ++ List.replicate (openBraces - closeBraces) braceClose
  let openBrackets := cleaned1.count '['
  let closeBrackets := cleaned1.count ']'
  let cleaned2 := cleaned1 ++ List.replicate (openBrackets - closeBrackets) ']'
  let cleaned3 := stripTrailingCommas cleaned2
  if isValidJSON (String.mk cleaned3) then String.mk cleaned3
  else
    match lastCompleteMatch cleaned3 with
    | some pre => String.mk pre
    | none => String.mk cleaned3

/-- Model of the JSON-extraction stage of `FireworksAIService.parseResponse`
(the inner try block): pick the brace span if present, repair it when
invalid, and re-parse once; `none` is the thrown
`AI response is not valid JSON` error. -/
def extractParsedJson (contentStr : String) : Option Json :=
  match firstBraceMatch contentStr.data with
  | some m =>
    let s := String.mk m
    let jsonString := if isValidJSON s then s else fixTruncatedJSON s
    jsonParse jsonString
  | none =>
    if isValidJSON contentStr then jsonParse contentStr
    else jsonParse (fixTruncatedJSON contentStr)

/-! ### Response validation -/

/-- JavaScript truthiness of a parsed JSON value: `null`, `false`, `0` and
the empty string are falsy; arrays and objects are always truthy. -/
def jsTruthy : Json → Bool
  | .null => false
  | .bool b => b
  | .num n => n.mant ≠ 0
  | .str s => s ≠ ""
  | .arr _ => true
  | .obj _ => true

/-- Property access `value[key]` on a parsed JSON value: `none` models the
JavaScript `undefined`.  With duplicate keys `JSON.parse` keeps the last
occurrence, hence the reversed lookup. -/
def jgetField (j : Json) (k : String) : Option Json :=
  match j with
  | .obj kvs => (kvs.reverse.find? (fun kv => kv.1 = k)).map (fun kv => kv.2)
  | _ => none

/-- Truthiness of `value[key]`, with `undefined` falsy. -/
def truthyField (j : Json) (k : String) : Bool :=
  match jgetField j k with
  | some v => jsTruthy v
  | none => false

/-- Validity of one entry of `muscle_analysis`: a truthy `muscle_name` and a
numeric `development_score` within `[1, 10]`. -/
def validMuscleEntry (m : Json) : Bool :=
  truthyField m "muscle_name" &&
    match jgetField m "development_score" with
    | some (.num q) => JNum.intLe 1 q && JNum.leInt q 10
    | _ => false

/-- Model of `FireworksAIService.validateAnalysisResponse`: the thrown error
message, or `ok` when the response passes every check. -/
def validateAnalysisResponse (data : Json) : Except String Unit :=
  if ¬ truthyField data "analysis_metadata" then
    .error "Missing required field: analysis_metadata"
  else if ¬ truthyField data "muscle_analysis" then
    .error "Missing required field: muscle_analysis"
  else if ¬ truthyField data "overall_assessment" then
    .error "Missing required field: overall_assessment"
  else if ¬ truthyField data "recommendations" then
    .error "Missing required field: recommendations"
  else if ¬ ((jgetField data "analysis_metadata").elim false
      (fun md => truthyField md "image_quality" &&
        match jgetField md "analysis_confidence" with
        | some (.num _) => true
        | _ => false)) then
    .error "Invalid analysis metadata"
  else
    match jgetField data "muscle_analysis" with
    | some (.arr muscles) =>
      if muscles.isEmpty then .error "Invalid muscle analysis data"
      else if muscles.all validMuscleEntry then .ok ()
      else .error "Invalid muscle analysis entry"
    | _ => .error "Invalid muscle analysis data"

/-- Model of `FireworksAIService.parseResponse` on the extracted message
content (`response.choices?.[0]?.message?.content`, `none` when absent): the
outer catch converts every internal failure into the single thrown error
`Invalid response format from AI`. -/
def parseResponse (content : Option String) : Except String Json :=
  match content with
  | none => .error "Invalid response format from AI"
  | some c =>
    match extractParsedJson c with
    | none => .error "Invalid response format from AI"
    | some j =>
      match validateAnalysisResponse j with
      | .error _ => .error "Invalid response format from AI"
      | .ok _ => .ok j

/-! ### Error classification and the retry loop -/

/-- Model of an Axios error: an optional HTTP response status (`none` is a
network error with no response), the JS error message, and the serialized
response body. -/
structure AxiosErr where
  responseStatus : Option Nat
  message : String
  responseData : String
deriving DecidableEq

/-- Model of a thrown JavaScript value reaching `handleError`: either an
Axios error or a plain `Error` with a message. -/
inductive Thrown where
  | axios (e : AxiosErr)
  | js (msg : String)
deriving DecidableEq

/-- Error codes of the `APIErrorCode` enum. -/
inductive APIErrorCode where
  | NETWORK_ERROR
  | RATE_LIMIT
  | INVALID_IMAGE
  | API_TIMEOUT
  | INSUFFICIENT_CREDITS
  | INVALID_RESPONSE
  | AUTH_ERROR
  | SERVER_ERROR
  | UNKNOWN_ERROR
deriving DecidableEq

/-- Model of the classified `APIError` structure (the opaque `details`
payload is carried as the serialized response body). -/
structure APIError where
  code : APIErrorCode
  message : String
  retryable : Bool
  userMessage : String
deriving DecidableEq

/-- Model of `FireworksAIService.isRetryableError`: network errors always
retry; with a response, exactly the statuses 429, 503 and 500-or-above
retry. -/
def isRetryableError (e : AxiosErr) : Bool :=
  match e.responseStatus with
  | none => true
  | some status => status = 429 || status = 503 || 500 ≤ status

/-- Model of `FireworksAIService.handleError`: classify a thrown value into
an `APIError`. -/
def handleError (error : Thrown) : APIError :=
  match error with
  | .axios e =>
    match e.responseStatus with
    | none =>
      ⟨.NETWORK_ERROR, e.message, true,
        "Unable to connect. Please check your internet connection."⟩
    | some status =>
      if status = 401 then
        ⟨.AUTH_ERROR, "Authentication failed - Invalid API key", false,
          "Authentication Error: Invalid or missing API key. Set EXPO_PUBLIC_FIREWORKS_API_KEY in your .env and restart the app."⟩
      else if status = 404 then
        ⟨.UNKNOWN_ERROR, "Model not found or inaccessible", false,
          "Model Error: The requested model was not found or is inaccessible. Verify model ID (accounts/fireworks/models/llama-v3p2-11b-vision-instruct), serverless availability, and API key permissions."⟩
      else if status = 429 then
        ⟨.RATE_LIMIT, "Rate limit exceeded", true,
          "Too many requests. Please wait a moment and try again."⟩
      else if status = 408 ∨ status = 504 then
        ⟨.API_TIMEOUT, "Request timeout", true,
          "Analysis is taking longer than expected. Please try again."⟩
      else if status = 400 then
        ⟨.UNKNOWN_ERROR, "Bad request: " ++ e.responseData, false,
          "Request Error: Invalid request format. Please try with a different image."⟩
      else if status = 403 then
        ⟨.AUTH_ERROR, "Forbidden - insufficient permissions", false,
          "Permission Error: Your API key does not have sufficient permissions."⟩
      else if 500 ≤ status then
        ⟨.SERVER_ERROR, "Server error: " ++ toString status, true,
          "Server Error (" ++ toString status ++ "): The AI service is temporarily unavailable. Please try again later."⟩
      else
        ⟨.UNKNOWN_ERROR, "HTTP " ++ toString status ++ ": " ++ e.responseData, false,
          "Unexpected Error (" ++ toString status ++ "): Please try again or contact support."⟩
  | .js msg =>
    ⟨.UNKNOWN_ERROR, if msg = "" then "Unknown error occurred" else msg, false,
      "Unexpected Error: " ++ (if msg = "" then "Something went wrong" else msg) ++ ". Please try again."⟩

/-- Model of `FireworksAIService.calculateRetryDelay`: exponential backoff
from the configured base delay, plus the sampled jitter, capped at 30000
milliseconds.  `retryCount` is the one-based retry number. -/
def calculateRetryDelay (retryDelay backoffFactor jitter : ℚ) (retryCount : Nat) : ℚ :=
  min (retryDelay * backoffFactor ^ (retryCount - 1) + jitter) 30000

/-- Outcome of one HTTP POST attempt: a response, a user cancellation, or a
raised Axios error. -/
inductive AttemptOutcome (ρ : Type) where
  | ok (resp : ρ)
  | cancel
  | fail (e : AxiosErr)

/-- Result of a run of the retry loop: how many POST attempts were issued,
the backoff delays waited between them, and the returned response or the
error finally thrown. -/
structure RetryRun (ρ : Type) where
  attemptsMade : Nat
  delays : List ℚ
  result : Except Thrown ρ

/-- Model of the loop body of `FireworksAIService.executeWithRetry`.
`attempts n` is the outcome of the POST issued with `retryCount = n`;
`remaining = maxRetries - retryCount` counts the retries still allowed, so
the source guard `!isRetryable || retryCount >= maxRetries → throw` becomes
`continue iff retryable ∧ remaining ≠ 0`. -/
def runRetry (attempts : Nat → AttemptOutcome ρ) (jitter : Nat → ℚ)
    (retryDelay backoffFactor : ℚ) : Nat → Nat → RetryRun ρ
  | retryCount, remaining =>
    match attempts retryCount with
    | .ok r => ⟨1, [], .ok r⟩
    | .cancel => ⟨1, [], .error (.js "Request cancelled by user")⟩
    | .fail e =>
      if isRetryableError e ∧ remaining ≠ 0 then
        match remaining with
        | 0 => ⟨1, [], .error (.axios e)⟩
        | rem + 1 =>
          let d := calculateRetryDelay retryDelay backoffFactor (jitter (retryCount + 1)) (retryCount + 1)
          let rest := runRetry attempts jitter retryDelay backoffFactor (retryCount + 1) rem
          ⟨rest.attemptsMade + 1, d :: rest.delays, rest.result⟩
      else ⟨1, [], .error (.axios e)⟩

/-- Model of `FireworksAIService.executeWithRetry` entered with
`retryCount = 0`, as `analyzeMuscleImage` does. -/
def executeWithRetry (attempts : Nat → AttemptOutcome ρ) (jitter : Nat → ℚ)
    (retryDelay backoffFactor : ℚ) (maxRetries : Nat) : RetryRun ρ :=
  runRetry attempts jitter retryDelay backoffFactor 0 maxRetries

/-! ### QueueManager

Timestamps are `Date.now()` values modelled as naturals; request ids are
given as inputs (the source generates them from the clock and a random
suffix).  `persisted` is the content of the AsyncStorage key
`muscle_ai_request_queue`; `saveQueue` is modelled on its success path
(persistence errors are logged and swallowed by the source).
-/

/-- The `status` field of a queued request. -/
inductive ReqStatus where
  | pending
  | processing
  | completed
  | failed
deriving DecidableEq

/-- Model of the `QueuedRequest` record. -/
structure QueuedRequest where
  id : String
  imageUri : String
  priority : Nat
  timestamp : Nat
  retryCount : Nat
  status : ReqStatus
deriving DecidableEq

/-- Priority constants of `QUEUE_CONFIG`. -/
def REQUEST_PRIORITY_HIGH : Nat := 1

/-- Normal priority, the `addToQueue` default. -/
def REQUEST_PRIORITY_NORMAL : Nat := 5

/-- Low priority constant. -/
def REQUEST_PRIORITY_LOW : Nat := 10

/-- In-memory and persisted state of the `QueueManager` singleton. -/
structure QueueState where
  queue : List QueuedRequest
  isProcessing : Bool
  currentRequest : Option QueuedRequest
  persisted : Option (List QueuedRequest)

/-- Comparator order of `sortQueue`: ascending priority, then ascending
timestamp. -/
def reqLe (a b : QueuedRequest) : Prop :=
  a.priority < b.priority ∨ (a.priority = b.priority ∧ a.timestamp ≤ b.timestamp)

instance : DecidableRel reqLe := fun a b =>
  inferInstanceAs (Decidable (a.priority < b.priority ∨ (a.priority = b.priority ∧ a.timestamp ≤ b.timestamp)))

/-- Model of `QueueManager.sortQueue`: a stable sort by the comparator
`(a, b) => a.priority - b.priority || a.timestamp - b.timestamp`. -/
def sortQueue (l : List QueuedRequest) : List QueuedRequest :=
  List.insertionSort reqLe l

/-- Model of `QueueManager.saveQueue` (success path): serialize the
in-memory queue to storage. -/
def saveQueue (s : QueueState) : QueueState :=
  { s with persisted := some s.queue }

/-- Model of `QueueManager.addToQueue`: append a fresh `pending` request,
re-sort, persist, and return the request id. -/
def addToQueue (s : QueueState) (id imageUri : String) (priority now : Nat) :
    QueueState × String :=
  let request : QueuedRequest := ⟨id, imageUri, priority, now, 0, .pending⟩
  let s1 := { s with queue := sortQueue (s.queue ++ [request]) }
  (saveQueue s1, id)

/-- Model of lines 62–68 of `QueueManager.processQueue`: shift the head
request out of the queue, set it as current, mark it `processing`, and
persist the (now headless) queue, all before the handler runs.  Returns
`none` when the queue is empty. -/
def processTakeAndMark (s : QueueState) : Option (QueuedRequest × QueueState) :=
  match s.queue with
  | [] => none
  | request :: rest =>
    let request' := { request with status := ReqStatus.processing }
    some (request', saveQueue { s with queue := rest, currentRequest := some request' })

/-- Model of lines 70–88 of `QueueManager.processQueue`: apply the handler
outcome to the current request, re-queueing it as `pending` with high
priority when the incremented retry count is still below 3, then persist and
clear the current request. -/
def processHandlerResult (request : QueuedRequest) (handlerOk : Bool)
    (s : QueueState) : QueueState :=
  if handlerOk then
    let s1 := saveQueue s
    { s1 with currentRequest := none }
  else
    let request1 := { request with status := ReqStatus.failed,
                                   retryCount := request.retryCount + 1 }
    let s1 :=
      if request1.retryCount < 3 then
        let request2 := { request1 with status := ReqStatus.pending,
                                        priority := REQUEST_PRIORITY_HIGH }
        { s with queue := sortQueue (s.queue ++ [request2]) }
      else s
    let s2 := saveQueue s1
    { s2 with currentRequest := none }

/-- One iteration of the `processQueue` while loop. -/
def processIteration (handlerOk : QueuedRequest → Bool) (s : QueueState) : QueueState :=
  match processTakeAndMark s with
  | none => s
  | some (request, s1) => processHandlerResult request (handlerOk request) s1

/-- Model of `QueueManager.processQueue`: guarded by `isProcessing`, loop the
iteration until the queue is empty (fuel bounds the loop; it is reset to
`false` on exit). -/
def processLoop (handlerOk : QueuedRequest → Bool) : Nat → QueueState → QueueState
  | 0, s => s
  | fuel + 1, s =>
    if s.queue.isEmpty then s
    else processLoop handlerOk fuel (processIteration handlerOk s)

/-- Model of `QueueManager.processQueue` including the `isProcessing`
guard. -/
def processQueue (handlerOk : QueuedRequest → Bool) (fuel : Nat) (s : QueueState) : QueueState :=
  if s.isProcessing ∨ s.queue.isEmpty then s
  else
    let s1 := processLoop handlerOk fuel { s with isProcessing := true }
    { s1 with isProcessing := false }

/-- Model of `QueueManager.loadQueue` at startup: read the persisted queue,
reset every `processing` request to `pending`, and sort.  A missing or
unreadable record leaves the queue empty. -/
def loadQueue (persistedData : Option (List QueuedRequest)) : List QueuedRequest :=
  match persistedData with
  | none => []
  | some qs =>
    sortQueue (qs.map (fun req =>
      if req.status = ReqStatus.processing then { req with status := ReqStatus.pending }
      else req))

/-- Model of `QueueManager.getRequest`: the current request when the id
matches, else a search of the queue. -/
def getRequest (s : QueueState) (requestId : String) : Option QueuedRequest :=
  match s.currentRequest with
  | some c => if c.id = requestId then some c else s.queue.find? (fun r => r.id = requestId)
  | none => s.queue.find? (fun r => r.id = requestId)

/-- Model of `QueueManager.getQueuePosition`: one-based position in the
queue, `-1` when absent. -/
def getQueuePosition (s : QueueState) (requestId : String) : Int :=
  match s.queue.findIdx? (fun r => r.id = requestId) with
  | some i => (i : Int) + 1
  | none => -1

/-- Model of `QueueManager.getQueueStatus`. -/
def getQueueStatus (s : QueueState) : Nat × Option QueuedRequest × Nat :=
  ((s.queue.filter (fun r => r.status = ReqStatus.pending)).length,
   s.currentRequest, s.queue.length)

/-! ### CacheManager

The persistent key-value store is modelled typed: `store` maps an
AsyncStorage key to the JSON-serialized cache entry it holds, and `index` is
the array of key/timestamp pairs kept under `muscle_ai_cache_index`.  The
cached payload type is abstract.
-/

/-- The `CACHE_CONFIG` maximum entry count. -/
def MAX_CACHE_SIZE : Nat := 50

/-- The `CACHE_CONFIG` default duration: 0 means entries never expire. -/
def DEFAULT_DURATION : Nat := 0

/-- The AsyncStorage key namespace of the cache. -/
def cacheStorageKeyP : String := "muscle_ai_cache_"

/-- Signed 32-bit wrap applied by the JS bitwise operations. -/
def toInt32 (n : Int) : Int := (n + 2 ^ 31) % 2 ^ 32 - 2 ^ 31

/-- One step of the `generateImageHash` loop:
`hash = ((hash << 5) - hash) + char; hash = hash & hash`.  The inner shift
wraps to 32 bits on its own, but composing the wraps is congruent to a single
final wrap, applied here. -/
def hashStep (hash : Int) (c : Char) : Int :=
  toInt32 (toInt32 (hash * 32) - hash + c.toNat)

/-- Digit characters of `Number.prototype.toString(36)`. -/
def base36Digit (n : Nat) : Char :=
  if n < 10 then Char.ofNat (48 + n) else Char.ofNat (87 + n)

/-- Base-36 digit list of a natural number, most significant first; the fuel
only drives structural recursion and is never exhausted when it starts at
`n`. -/
def toBase36Aux : Nat → Nat → List Char
  | 0, n => [base36Digit (n % 36)]
  | fuel + 1, n =>
    if n < 36 then [base36Digit n]
    else toBase36Aux fuel (n / 36) ++ [base36Digit (n % 36)]

/-- Base-36 rendering of a natural number. -/
def toBase36 (n : Nat) : List Char := toBase36Aux n n

/-- Model of `CacheManager.generateImageHash`: the 32-bit string hash of the
image URI, made non-negative and rendered in base 36. -/
def generateImageHash (imageUri : String) : String :=
  String.mk (toBase36 (imageUri.data.foldl hashStep 0).natAbs)

/-- Model of `CacheManager.generateCacheKey`. -/
def generateCacheKey (imageUri : String) : String :=
  cacheStorageKeyP ++ generateImageHash imageUri

/-- Model of the serialized `CacheEntry` record. -/
structure CacheEntry (α : Type) where
  data : α
  timestamp : Nat
  expiresAt : Nat
  imageHash : String

/-- One element of the cache index array. -/
structure IndexEntry where
  key : String
  timestamp : Nat
deriving DecidableEq

/-- State of the cache namespace inside AsyncStorage. -/
structure CacheState (α : Type) where
  store : String → Option (CacheEntry α)
  index : List IndexEntry

/-- Index order used by `maintainCacheSize`: ascending timestamp. -/
def tsLe (a b : IndexEntry) : Prop := a.timestamp ≤ b.timestamp

instance : DecidableRel tsLe := fun a b =>
  inferInstanceAs (Decidable (a.timestamp ≤ b.timestamp))

/-- Model of `CacheManager.removeCacheEntry`: delete the storage record and
filter the key out of the index. -/
def removeCacheEntry (key : String) (s : CacheState α) : CacheState α :=
  { store := fun k => if k = key then none else s.store k,
    index := s.index.filter (fun item => ¬ item.key = key) }

/-- Number of entries evicted by one maintenance pass:
`Math.floor(maxCacheSize * 0.2)` (exact for the default size 50, where the
double product is exactly 10). -/
def evictCount (maxCacheSize : Nat) : Nat := maxCacheSize * 2 / 10

/-- Model of `CacheManager.maintainCacheSize`: when the index has reached the
maximum size, sort it by timestamp and remove the oldest 20% of
`maxCacheSize` entries. -/
def maintainCacheSize (maxCacheSize : Nat) (s : CacheState α) : CacheState α :=
  if maxCacheSize ≤ s.index.length then
    let sortedIndex := List.insertionSort tsLe s.index
    let toRemove := sortedIndex.take (evictCount maxCacheSize)
    toRemove.foldl (fun st entry => removeCacheEntry entry.key st) s
  else s

/-- Model of `CacheManager.updateCacheIndex`: refresh the timestamp of an
existing key or append a new pair. -/
def updateCacheIndex (key : String) (now : Nat) (s : CacheState α) : CacheState α :=
  if s.index.any (fun item => item.key = key) then
    { s with index := s.index.map (fun item =>
        if item.key = key then { item with timestamp := now } else item) }
  else
    { s with index := s.index ++ [⟨key, now⟩] }

/-- Model of `CacheManager.cacheAnalysis` (success path of the storage
writes): build the entry with its expiry, run the maintenance pass, write the
entry, and update the index. -/
def cacheAnalysis (maxCacheSize cacheDuration : Nat) (s : CacheState α)
    (imageUri : String) (analysis : α) (now : Nat) : CacheState α :=
  let cacheKey := generateCacheKey imageUri
  let imageHash := generateImageHash imageUri
  let entry : CacheEntry α :=
    ⟨analysis, now, if 0 < cacheDuration then now + cacheDuration else 0, imageHash⟩
  let s1 := maintainCacheSize maxCacheSize s
  let s2 : CacheState α :=
    { s1 with store := fun k => if k = cacheKey then some entry else s1.store k }
  updateCacheIndex cacheKey now s2

/-- Model of `CacheManager.cacheAnalysis` including its swallowing of
storage failures: when the write fails the catch logs and returns, leaving
the caller unaffected; the store is modelled as unchanged in that case. -/
def cacheAnalysisTry (storageOk : Bool) (maxCacheSize cacheDuration : Nat)
    (s : CacheState α) (imageUri : String) (analysis : α) (now : Nat) : CacheState α :=
  if storageOk then cacheAnalysis maxCacheSize cacheDuration s imageUri analysis now else s

/-- Model of `CacheManager.getCachedAnalysis`: look up the entry under the
derived key; an entry whose `expiresAt` is nonzero and in the past is lazily
deleted and reported as a miss; returns the hit (if any) and the possibly
updated store. -/
def getCachedAnalysis (s : CacheState α) (imageUri : String) (now : Nat) :
    Option α × CacheState α :=
  let cacheKey := generateCacheKey imageUri
  match s.store cacheKey with
  | none => (none, s)
  | some entry =>
    if entry.expiresAt ≠ 0 ∧ 0 < entry.expiresAt ∧ entry.expiresAt < now then
      (none, removeCacheEntry cacheKey s)
    else (some entry.data, s)

/-! ### FireworksAIService.analyzeMuscleImage

The orchestrator composes cache lookup, image preprocessing, the retrying
HTTP call, parse/validate, and the write-through cache update.  Its whole
body runs inside a try/catch whose catch classifies any thrown value via
`handleError` into a structured failure result, so the embedding is a total
function.  The environment carries the behavior of the external
collaborators: the image preprocessor, the HTTP endpoint (as the outcome of
each attempt, yielding the extracted message content), the jitter samples,
and whether AsyncStorage writes succeed.
-/

/-- The configured exponential backoff factor of `API_CONFIG`. -/
def EXPONENTIAL_BACKOFF_FACTOR : ℚ := 2

/-- Model of the `AIServiceConfig` loaded from the environment (`apiUrl` and
`timeout` configure the HTTP transport, which the attempt outcomes
abstract). -/
structure AIServiceConfig where
  apiKey : String
  apiUrl : String
  timeout : Nat
  maxRetries : Nat
  retryDelay : ℚ

/-- Model of the `APIResponse` envelope returned to the UI layer. -/
structure APIResponse (α : Type) where
  success : Bool
  data : Option α
  error : Option APIError
  timestamp : Nat
  cached : Option Bool

/-- Behavior of the orchestrated call's collaborators during one request. -/
structure AnalysisEnv where
  imageUri : String
  now : Nat
  processedImage : Except Thrown String
  attempts : Nat → AttemptOutcome (Option String)
  jitter : Nat → ℚ
  storageOk : Bool

/-- Failure result assembled in the catch block of `analyzeMuscleImage`. -/
def mkErrorResponse (e : APIError) (now : Nat) : APIResponse α :=
  ⟨false, none, some e, now, none⟩

/-- Model of `FireworksAIService.analyzeMuscleImage`: validate the API key,
consult the cache, preprocess the image, call the endpoint with retries,
parse and validate the response, cache the result, and return a structured
success or failure envelope together with the updated cache state. -/
def analyzeMuscleImage (cfg : AIServiceConfig) (env : AnalysisEnv)
    (cache : CacheState Json) : APIResponse Json × CacheState Json :=
  if trimChars cfg.apiKey.data = [] then
    (mkErrorResponse
      ⟨.AUTH_ERROR, "Missing API key", false,
        "Missing API key. Please check your environment configuration."⟩ env.now,
     cache)
  else
    match getCachedAnalysis cache env.imageUri env.now with
    | (some cachedResult, cache1) =>
      (⟨true, some cachedResult, none, env.now, some true⟩, cache1)
    | (none, cache1) =>
      match env.processedImage with
      | .error e => (mkErrorResponse (handleError e) env.now, cache1)
      | .ok _base64 =>
        let run := executeWithRetry env.attempts env.jitter cfg.retryDelay
          EXPONENTIAL_BACKOFF_FACTOR cfg.maxRetries
        match run.result with
        | .error thrown => (mkErrorResponse (handleError thrown) env.now, cache1)
        | .ok content =>
          match parseResponse content with
          | .error msg => (mkErrorResponse (handleError (.js msg)) env.now, cache1)
          | .ok analysisResult =>
            let cache2 := cacheAnalysisTry env.storageOk MAX_CACHE_SIZE DEFAULT_DURATION
              cache1 env.imageUri analysisResult env.now
            (⟨true, some analysisResult, none, env.now, some false⟩, cache2)

/-! ### Order instances and shared lemmas -/

instance : IsTotal QueuedRequest reqLe :=
  ⟨fun a b => by unfold reqLe; omega⟩

instance : IsTrans QueuedRequest reqLe :=
  ⟨fun a b c hab hbc => by unfold reqLe at hab hbc ⊢; omega⟩

instance : IsTotal IndexEntry tsLe :=
  ⟨fun a b => by unfold tsLe; omega⟩

instance : IsTrans IndexEntry tsLe :=
  ⟨fun a b c hab hbc => by unfold tsLe at hab hbc ⊢; omega⟩

/-- A run of the retry loop in which every attempt raises a retryable error
makes one more attempt than it has retries left, waits the computed backoff
delay before each retry, and finally rethrows the last error. -/
theorem runRetry_all_fail {ρ : Type} (attempts : Nat → AttemptOutcome ρ)
    (errs : Nat → AxiosErr) (jitter : Nat → ℚ) (rd bf : ℚ)
    (hatt : ∀ i, attempts i = .fail (errs i))
    (hret : ∀ i, isRetryableError (errs i) = true) :
    ∀ remaining retryCount,
      runRetry attempts jitter rd bf retryCount remaining =
        ⟨remaining + 1,
         (List.range remaining).map
           (fun k => calculateRetryDelay rd bf (jitter (retryCount + k + 1)) (retryCount + k + 1)),
         .error (.axios (errs (retryCount + remaining)))⟩ := by
  intro remaining
  induction remaining with
  | zero =>
    intro rc
    rw [runRetry]
    simp [hatt rc, hret rc]
  | succ rem ih =>
    intro rc
    rw [runRetry]
    rw [hatt rc]
    simp only
    rw [if_pos ⟨by rw [hret rc], Nat.succ_ne_zero rem⟩]
    simp only [ih (rc + 1)]
    refine congrArg₂ (RetryRun.mk (rem + 1 + 1)) ?_ ?_
    · rw [List.range_succ_eq_map, List.map_cons, List.map_map]
      refine congrArg₂ List.cons (by rw [Nat.add_zero]) ?_
      refine List.map_congr_left (fun k _ => ?_)
      have h1 : rc + 1 + k + 1 = rc + (k + 1) + 1 := by omega
      simp only [Function.comp_apply, Nat.succ_eq_add_one, h1]
    · have h2 : rc + 1 + rem = rc + (rem + 1) := by omega
      rw [h2]

/-- A retryable error is classified by `handleError` as retryable. -/
theorem handleError_retryable_of (e : AxiosErr) (h : isRetryableError e = true) :
    (handleError (.axios e)).retryable = true := by
  unfold isRetryableError at h
  cases he : e.responseStatus with
  | none => simp [handleError, he]
  | some s =>
    rw [he] at h
    simp only [Bool.or_eq_true, decide_eq_true_eq] at h
    simp only [handleError, he]
    split_ifs with h1 h2 h3 h4 h5 h6 h7 <;> first | rfl | omega

/-- Classification of an HTTP 401 response by `handleError`. -/
theorem handleError_401 (e : AxiosErr) (hs : e.responseStatus = some 401) :
    handleError (.axios e) =
      ⟨.AUTH_ERROR, "Authentication failed - Invalid API key", false,
        "Authentication Error: Invalid or missing API key. Set EXPO_PUBLIC_FIREWORKS_API_KEY in your .env and restart the app."⟩ := by
  simp [handleError, hs]

/-- A non-retryable classified error: the retry loop guard is false. -/
theorem isRetryableError_false_of (e : AxiosErr) (s : Nat) (hs : e.responseStatus = some s)
    (hlt : s < 500) (h429 : s ≠ 429) : isRetryableError e = false := by
  unfold isRetryableError
  rw [hs]
  simp only [Bool.or_eq_false_iff, decide_eq_false_iff_not]
  omega

/-! ### Claim theorems -/

/-- C1: the spec claims that for the truncated input
`\x7b"a":1,"b":[1,2,` the repair pass makes the object
`\x7b"a":1,"b":[1,2]\x7d` and the re-parse succeeds.  The code instead
appends all missing closing braces before any missing closing bracket, so
the repair produces `\x7b"a":1,"b":[1,2\x7d]`, which is not valid JSON; the
re-parse fails and `parseResponse` throws.  The final conjunct records that
the object the spec expects is indeed the well-formed completion. -/
theorem c1_truncated_json_repair_fails :
    fixTruncatedJSON "\x7b\"a\":1,\"b\":[1,2," = "\x7b\"a\":1,\"b\":[1,2\x7d]" ∧
    isValidJSON "\x7b\"a\":1,\"b\":[1,2\x7d]" = false ∧
    extractParsedJson "\x7b\"a\":1,\"b\":[1,2," = none ∧
    parseResponse (some "\x7b\"a\":1,\"b\":[1,2,") = .error "Invalid response format from AI" ∧
    jsonParse "\x7b\"a\":1,\"b\":[1,2]\x7d" =
      some (Json.obj [("a", Json.num ⟨1, 0⟩), ("b", Json.arr [Json.num ⟨1, 0⟩, Json.num ⟨2, 0⟩])]) :=
  ⟨rfl, rfl, rfl, rfl, rfl⟩

/-- C3: with `maxRetries = 3`, when every attempt fails with a retryable
error the loop issues exactly 4 POST attempts and terminates by throwing the
last error, which classifies as a retryable `APIError`. -/
theorem c3_retry_exhaustion_four_attempts {ρ : Type} (attempts : Nat → AttemptOutcome ρ)
    (errs : Nat → AxiosErr) (jitter : Nat → ℚ) (retryDelay : ℚ)
    (hatt : ∀ i, attempts i = .fail (errs i))
    (hret : ∀ i, isRetryableError (errs i) = true) :
    (executeWithRetry attempts jitter retryDelay EXPONENTIAL_BACKOFF_FACTOR 3).attemptsMade = 4 ∧
    (executeWithRetry attempts jitter retryDelay EXPONENTIAL_BACKOFF_FACTOR 3).result =
      .error (.axios (errs 3)) ∧
    (handleError (.axios (errs 3))).retryable = true := by
  rw [executeWithRetry, runRetry_all_fail attempts errs jitter retryDelay _ hatt hret 3 0]
  exact ⟨rfl, rfl, handleError_retryable_of _ (hret 3)⟩

/-- C4: an attempt failing with an HTTP status below 500 other than 429
(hence outside the retryable set, 401 in particular) stops the loop after
exactly one attempt with no backoff delay, rethrowing the error; a 401
classifies as a non-retryable `AUTH_ERROR`. -/
theorem c4_non_retryable_single_attempt {ρ : Type} (attempts : Nat → AttemptOutcome ρ)
    (e : AxiosErr) (s : Nat) (jitter : Nat → ℚ) (retryDelay : ℚ) (maxRetries : Nat)
    (hatt : attempts 0 = .fail e) (hs : e.responseStatus = some s)
    (hlt : s < 500) (h429 : s ≠ 429) :
    (executeWithRetry attempts jitter retryDelay EXPONENTIAL_BACKOFF_FACTOR maxRetries).attemptsMade = 1 ∧
    (executeWithRetry attempts jitter retryDelay EXPONENTIAL_BACKOFF_FACTOR maxRetries).delays = [] ∧
    (executeWithRetry attempts jitter retryDelay EXPONENTIAL_BACKOFF_FACTOR maxRetries).result =
      .error (.axios e) ∧
    (s = 401 → (handleError (.axios e)).code = .AUTH_ERROR ∧
      (handleError (.axios e)).retryable = false) := by
  have hnr : isRetryableError e = false := isRetryableError_false_of e s hs hlt h429
  have hrun : executeWithRetry attempts jitter retryDelay EXPONENTIAL_BACKOFF_FACTOR maxRetries =
      ⟨1, [], .error (.axios e)⟩ := by
    rw [executeWithRetry, runRetry, hatt]
    simp [hnr]
  rw [hrun]
  refine ⟨rfl, rfl, rfl, ?_⟩
  intro h401
  subst h401
  rw [handleError_401 e hs]
  exact ⟨rfl, rfl⟩

/-- C8: the delay waited before retry `n` (one-based) is exactly
`min(30000, retryDelay * backoffFactor ^ (n - 1) + jitter)` milliseconds
with the default `retryDelay = 1000` and `backoffFactor = 2`, for a jitter
sample in `[0, 1000)`; in particular it never exceeds 30000 ms.  The last
conjunct ties the formula to the loop: in a run whose attempts all fail
retryably, the `n`-th waited delay is this value. -/
theorem c8_backoff_delay_formula (n : Nat) (j : ℚ) (hn : 1 ≤ n) (hj0 : 0 ≤ j) (hj1 : j < 1000)
    (attempts : Nat → AttemptOutcome Unit) (errs : Nat → AxiosErr) (jitter : Nat → ℚ)
    (maxRetries : Nat)
    (hatt : ∀ i, attempts i = .fail (errs i)) (hret : ∀ i, isRetryableError (errs i) = true)
    (hnm : n ≤ maxRetries) (hjn : jitter n = j) :
    calculateRetryDelay 1000 EXPONENTIAL_BACKOFF_FACTOR j n =
      min 30000 ((1000 : ℚ) * 2 ^ (n - 1) + j) ∧
    calculateRetryDelay 1000 EXPONENTIAL_BACKOFF_FACTOR j n ≤ 30000 ∧
    (executeWithRetry attempts jitter 1000 EXPONENTIAL_BACKOFF_FACTOR maxRetries).delays[n - 1]? =
      some (calculateRetryDelay 1000 EXPONENTIAL_BACKOFF_FACTOR j n) := by
  refine ⟨min_comm _ _, min_le_right _ _, ?_⟩
  rw [executeWithRetry, runRetry_all_fail attempts errs jitter 1000 _ hatt hret maxRetries 0]
  have hb : n - 1 < maxRetries := by omega
  simp only [List.getElem?_map, List.getElem?_range hb, Option.map_some, Option.map]
  have h1 : 0 + (n - 1) + 1 = n := by omega
  rw [h1, hjn]

/-- Witness for C3: a concrete endpoint answering 503 on every attempt. -/
theorem c3_retry_exhaustion_four_attempts_witness :
    (executeWithRetry (ρ := Unit) (fun _ => .fail ⟨some 503, "Service Unavailable", ""⟩)
        (fun _ => 0) 1000 EXPONENTIAL_BACKOFF_FACTOR 3).attemptsMade = 4 ∧
    (executeWithRetry (ρ := Unit) (fun _ => .fail ⟨some 503, "Service Unavailable", ""⟩)
        (fun _ => 0) 1000 EXPONENTIAL_BACKOFF_FACTOR 3).result =
      .error (.axios ⟨some 503, "Service Unavailable", ""⟩) ∧
    (handleError (.axios ⟨some 503, "Service Unavailable", ""⟩)).retryable = true :=
  c3_retry_exhaustion_four_attempts (fun _ => .fail ⟨some 503, "Service Unavailable", ""⟩)
    (fun _ => ⟨some 503, "Service Unavailable", ""⟩) (fun _ => 0) 1000
    (fun _ => rfl) (fun _ => rfl)

/-- Witness for C4: a concrete endpoint answering 401 on the first
attempt. -/
theorem c4_non_retryable_single_attempt_witness :
    (executeWithRetry (ρ := Unit) (fun _ => .fail ⟨some 401, "Request failed with status code 401", ""⟩)
        (fun _ => 0) 1000 EXPONENTIAL_BACKOFF_FACTOR 3).attemptsMade = 1 ∧
    (executeWithRetry (ρ := Unit) (fun _ => .fail ⟨some 401, "Request failed with status code 401", ""⟩)
        (fun _ => 0) 1000 EXPONENTIAL_BACKOFF_FACTOR 3).delays = [] ∧
    (executeWithRetry (ρ := Unit) (fun _ => .fail ⟨some 401, "Request failed with status code 401", ""⟩)
        (fun _ => 0) 1000 EXPONENTIAL_BACKOFF_FACTOR 3).result =
      .error (.axios ⟨some 401, "Request failed with status code 401", ""⟩) ∧
    (401 = 401 → (handleError (.axios ⟨some 401, "Request failed with status code 401", ""⟩)).code = .AUTH_ERROR ∧
      (handleError (.axios ⟨some 401, "Request failed with status code 401", ""⟩)).retryable = false) :=
  c4_non_retryable_single_attempt (fun _ => .fail ⟨some 401, "Request failed with status code 401", ""⟩)
    ⟨some 401, "Request failed with status code 401", ""⟩ 401 (fun _ => 0) 1000 3
    rfl rfl (by decide) (by decide)

/-- Witness for C8: the first retry with a jitter sample of 500 in a run
against an endpoint answering 503 on every attempt. -/
theorem c8_backoff_delay_formula_witness :
    calculateRetryDelay 1000 EXPONENTIAL_BACKOFF_FACTOR 500 1 =
      min 30000 ((1000 : ℚ) * 2 ^ (1 - 1) + 500) ∧
    calculateRetryDelay 1000 EXPONENTIAL_BACKOFF_FACTOR 500 1 ≤ 30000 ∧
    (executeWithRetry (ρ := Unit) (fun _ => .fail ⟨some 503, "Service Unavailable", ""⟩)
        (fun _ => 500) 1000 EXPONENTIAL_BACKOFF_FACTOR 3).delays[1 - 1]? =
      some (calculateRetryDelay 1000 EXPONENTIAL_BACKOFF_FACTOR 500 1) :=
  c8_backoff_delay_formula 1 500 (by decide) (by decide) (by decide)
    (fun _ => .fail ⟨some 503, "Service Unavailable", ""⟩)
    (fun _ => ⟨some 503, "Service Unavailable", ""⟩) (fun _ => 500) 3
    (fun _ => rfl) (fun _ => rfl) (by decide) rfl

/-- C7: the queue left by any `addToQueue` call is sorted by ascending
priority then ascending timestamp (lower priority value first), so after any
sequence of enqueues the pending order respects this key; in particular four
requests with priorities 5, 1, 5, 1 at increasing timestamps are processed
as the two priority-1 requests in submission order, then the two priority-5
requests in submission order. -/
theorem c7_queue_priority_order :
    (∀ (s : QueueState) (id imageUri : String) (priority now : Nat),
      List.Sorted reqLe (addToQueue s id imageUri priority now).1.queue) ∧
    (let s0 : QueueState := ⟨[], false, none, none⟩
     let s1 := (addToQueue s0 "r1" "a.jpg" 5 1).1
     let s2 := (addToQueue s1 "r2" "b.jpg" 1 2).1
     let s3 := (addToQueue s2 "r3" "c.jpg" 5 3).1
     let s4 := (addToQueue s3 "r4" "d.jpg" 1 4).1
     s4.queue.map QueuedRequest.id = ["r2", "r4", "r1", "r3"]) := by
  constructor
  · intro s id imageUri priority now
    exact List.sorted_insertionSort reqLe _
  · rfl

/-- C2: the spec claims every status transition is persisted, in particular
that after `processQueue` takes the head request and marks it `processing`
the persisted queue still contains it, so that a crash during the handler is
recovered by `loadQueue` resetting it to `pending`.  The code shifts the
request out of the queue before saving, so the persisted queue is empty: a
crash during the handler loses the request entirely.  The final conjunct
shows the recovery branch of `loadQueue` does reset a persisted `processing`
request, but `processQueue` never persists one. -/
theorem c2_processing_request_not_persisted :
    processTakeAndMark ⟨[⟨"req1", "img.jpg", 5, 100, 0, .pending⟩], true, none,
        some [⟨"req1", "img.jpg", 5, 100, 0, .pending⟩]⟩ =
      some (⟨"req1", "img.jpg", 5, 100, 0, .processing⟩,
        ⟨[], true, some ⟨"req1", "img.jpg", 5, 100, 0, .processing⟩, some []⟩) ∧
    loadQueue (some []) = [] ∧
    getRequest ⟨loadQueue (some []), false, none, some []⟩ "req1" = none ∧
    loadQueue (some [⟨"req1", "img.jpg", 5, 100, 0, .processing⟩]) =
      [⟨"req1", "img.jpg", 5, 100, 0, .pending⟩] :=
  ⟨rfl, rfl, rfl, rfl⟩

/-- C10: when the handler fails a request whose retry count reaches 3, the
request is dropped: it is absent from the in-memory queue, absent from the
persisted queue, no longer the current request, and invisible to
`getRequest`, `getQueuePosition` and `getQueueStatus`. -/
theorem c10_exhausted_request_dropped (s : QueueState) (r : QueuedRequest)
    (rest : List QueuedRequest) (handlerOk : QueuedRequest → Bool)
    (hq : s.queue = r :: rest) (hrc : r.retryCount = 2)
    (hfail : handlerOk { r with status := ReqStatus.processing } = false)
    (hid : ∀ q ∈ rest, ¬ q.id = r.id) :
    (processIteration handlerOk s).queue = rest ∧
    (processIteration handlerOk s).persisted = some rest ∧
    (processIteration handlerOk s).currentRequest = none ∧
    getRequest (processIteration handlerOk s) r.id = none ∧
    getQueuePosition (processIteration handlerOk s) r.id = -1 ∧
    (getQueueStatus (processIteration handlerOk s)).2.1 = none := by
  have hstep : processIteration handlerOk s = ⟨rest, s.isProcessing, none, some rest⟩ := by
    rw [processIteration, processTakeAndMark, hq]
    simp only [processHandlerResult, hfail, saveQueue]
    simp [hrc]
  refine ⟨by rw [hstep], by rw [hstep], by rw [hstep], ?_, ?_, by rw [hstep]; rfl⟩
  · rw [hstep]
    simp only [getRequest]
    rw [List.find?_eq_none]
    intro q hqmem
    simp only [decide_eq_true_eq]
    exact hid q hqmem
  · rw [hstep]
    simp only [getQueuePosition]
    have hnone : rest.findIdx? (fun q => q.id = r.id) = none := by
      rw [List.findIdx?_eq_none_iff]
      intro q hqmem
      simpa using hid q hqmem
    rw [hnone]

/-- Witness for C10: a concrete single-request queue whose handler fails
while the request already has two prior retries. -/
theorem c10_exhausted_request_dropped_witness :
    (processIteration (fun _ => false)
        ⟨[⟨"req1", "img.jpg", 1, 100, 2, .pending⟩], true, none, none⟩).queue = [] ∧
    (processIteration (fun _ => false)
        ⟨[⟨"req1", "img.jpg", 1, 100, 2, .pending⟩], true, none, none⟩).persisted = some [] ∧
    (processIteration (fun _ => false)
        ⟨[⟨"req1", "img.jpg", 1, 100, 2, .pending⟩], true, none, none⟩).currentRequest = none ∧
    getRequest (processIteration (fun _ => false)
        ⟨[⟨"req1", "img.jpg", 1, 100, 2, .pending⟩], true, none, none⟩) "req1" = none ∧
    getQueuePosition (processIteration (fun _ => false)
        ⟨[⟨"req1", "img.jpg", 1, 100, 2, .pending⟩], true, none, none⟩) "req1" = -1 ∧
    (getQueueStatus (processIteration (fun _ => false)
        ⟨[⟨"req1", "img.jpg", 1, 100, 2, .pending⟩], true, none, none⟩)).2.1 = none :=
  c10_exhausted_request_dropped
    ⟨[⟨"req1", "img.jpg", 1, 100, 2, .pending⟩], true, none, none⟩
    ⟨"req1", "img.jpg", 1, 100, 2, .pending⟩ [] (fun _ => false)
    rfl rfl rfl (by simp)

/-- C6: an entry whose `expiresAt` is nonzero and strictly in the past is a
miss and is lazily removed from both the store and the index; an entry with
`expiresAt = 0` never expires, whatever the current time. -/
theorem c6_ttl_expiry {α : Type} (s : CacheState α) (imageUri : String) (now : Nat)
    (entry : CacheEntry α) (hst : s.store (generateCacheKey imageUri) = some entry) :
    (entry.expiresAt ≠ 0 → entry.expiresAt < now →
      (getCachedAnalysis s imageUri now).1 = none ∧
      (getCachedAnalysis s imageUri now).2.store (generateCacheKey imageUri) = none ∧
      ∀ it ∈ (getCachedAnalysis s imageUri now).2.index, ¬ it.key = generateCacheKey imageUri) ∧
    (entry.expiresAt = 0 →
      (getCachedAnalysis s imageUri now).1 = some entry.data ∧
      (getCachedAnalysis s imageUri now).2 = s) := by
  constructor
  · intro hne hpast
    have hcond : entry.expiresAt ≠ 0 ∧ 0 < entry.expiresAt ∧ entry.expiresAt < now :=
      ⟨hne, Nat.pos_of_ne_zero hne, hpast⟩
    have hget : getCachedAnalysis s imageUri now =
        (none, removeCacheEntry (generateCacheKey imageUri) s) := by
      simp only [getCachedAnalysis, hst]
      rw [if_pos hcond]
    rw [hget]
    refine ⟨rfl, ?_, ?_⟩
    · simp [removeCacheEntry]
    · intro it hmem
      simp only [removeCacheEntry, List.mem_filter, decide_eq_true_eq] at hmem
      exact hmem.2
  · intro h0
    have hget : getCachedAnalysis s imageUri now = (some entry.data, s) := by
      simp only [getCachedAnalysis, hst]
      rw [if_neg (by simp [h0])]
    rw [hget]
    exact ⟨rfl, rfl⟩

set_option maxRecDepth 8000 in
/-- Witness for C6: a store holding an entry expired at time 10 read at time
11, and a store holding a never-expiring entry read at the same time. -/
theorem c6_ttl_expiry_witness :
    (getCachedAnalysis (α := Nat)
        ⟨fun k => if k = generateCacheKey "img.jpg" then some ⟨42, 5, 10, "h"⟩ else none,
         [⟨generateCacheKey "img.jpg", 5⟩]⟩ "img.jpg" 11).1 = none ∧
    (getCachedAnalysis (α := Nat)
        ⟨fun k => if k = generateCacheKey "img.jpg" then some ⟨42, 5, 10, "h"⟩ else none,
         [⟨generateCacheKey "img.jpg", 5⟩]⟩ "img.jpg" 11).2.store
      (generateCacheKey "img.jpg") = none ∧
    (getCachedAnalysis (α := Nat)
        ⟨fun k => if k = generateCacheKey "img.jpg" then some ⟨42, 5, 0, "h"⟩ else none,
         [⟨generateCacheKey "img.jpg", 5⟩]⟩ "img.jpg" 999999).1 = some 42 :=
  ⟨((c6_ttl_expiry _ "img.jpg" 11 ⟨42, 5, 10, "h"⟩ rfl).1 (by decide) (by decide)).1,
   ((c6_ttl_expiry _ "img.jpg" 11 ⟨42, 5, 10, "h"⟩ rfl).1 (by decide) (by decide)).2.1,
   ((c6_ttl_expiry _ "img.jpg" 999999 ⟨42, 5, 0, "h"⟩ rfl).2 rfl).1⟩

/-- Two booleans agreeing as propositions are equal. -/
theorem bool_eq_of_iff {a b : Bool} (h : a = true ↔ b = true) : a = b := by
  cases a <;> cases b <;> simp_all

/-- Folding `removeCacheEntry` over a removal list filters exactly the
removed keys out of the index. -/
theorem foldl_removeCacheEntry_index {α : Type} (rem : List IndexEntry) (s : CacheState α) :
    (rem.foldl (fun st e => removeCacheEntry e.key st) s).index
      = s.index.filter (fun it => !(rem.any (fun e => e.key = it.key))) := by
  induction rem generalizing s with
  | nil => simp
  | cons e rem ih =>
    rw [List.foldl_cons, ih]
    simp only [removeCacheEntry]
    rw [List.filter_filter]
    apply List.filter_congr
    intro it _
    apply bool_eq_of_iff
    simp only [Bool.and_eq_true, Bool.not_eq_true', List.any_eq_false,
      decide_eq_false_iff_not, decide_eq_true_eq, List.any_cons, List.mem_cons,
      Bool.or_eq_false_iff]
    constructor
    · rintro ⟨h1, h2⟩
      exact ⟨fun he => h2 he.symm, h1⟩
    · rintro ⟨h1, h2⟩
      exact ⟨h2, fun he => h1 he.symm⟩

/-- One maintenance pass on a full cache: the index shrinks by exactly
`evictCount 50 = 10` entries, and every evicted entry is at least as old as
every surviving entry. -/
theorem maintainCacheSize_evicts_oldest {α : Type} (s : CacheState α)
    (hnd : (s.index.map IndexEntry.key).Nodup) (h50 : 50 ≤ s.index.length) :
    (maintainCacheSize 50 s).index.length = s.index.length - 10 ∧
    ∀ e ∈ (List.insertionSort tsLe s.index).take 10,
      ∀ f ∈ (maintainCacheSize 50 s).index, e.timestamp ≤ f.timestamp := by
  have hperm : (List.insertionSort tsLe s.index).Perm s.index :=
    List.perm_insertionSort tsLe s.index
  have hsorted : List.Sorted tsLe (List.insertionSort tsLe s.index) :=
    List.sorted_insertionSort tsLe s.index
  set sorted := List.insertionSort tsLe s.index with hsdef
  have hlen : sorted.length = s.index.length := hperm.length_eq
  have hm : maintainCacheSize 50 s =
      (sorted.take 10).foldl (fun st entry => removeCacheEntry entry.key st) s := by
    rw [maintainCacheSize, if_pos h50]
    rfl
  set p : IndexEntry → Bool :=
    fun it => !((sorted.take 10).any (fun e => e.key = it.key)) with hpdef
  have hidx : (maintainCacheSize 50 s).index = s.index.filter p := by
    rw [hm, foldl_removeCacheEntry_index]
  have hnd' : (sorted.map IndexEntry.key).Nodup :=
    (hperm.map IndexEntry.key).nodup_iff.mpr hnd
  have htd : sorted.take 10 ++ sorted.drop 10 = sorted := List.take_append_drop 10 sorted
  have hdisj : (((sorted.take 10).map IndexEntry.key)).Disjoint
      ((sorted.drop 10).map IndexEntry.key) := by
    have : (((sorted.take 10).map IndexEntry.key) ++
        ((sorted.drop 10).map IndexEntry.key)).Nodup := by
      rw [← List.map_append, htd]
      exact hnd'
    exact (List.nodup_append.mp this).2.2
  have htake_nil : (sorted.take 10).filter p = [] := by
    rw [List.filter_eq_nil_iff]
    intro a ha
    have hany : ((sorted.take 10).any (fun e => e.key = a.key)) = true :=
      List.any_eq_true.mpr ⟨a, ha, by simp⟩
    simp [hpdef, hany]
  have hdrop_self : (sorted.drop 10).filter p = sorted.drop 10 := by
    rw [List.filter_eq_self]
    intro a ha
    simp only [hpdef, Bool.not_eq_true', List.any_eq_false, decide_eq_true_eq]
    intro e he
    intro hkey
    exact hdisj (List.mem_map_of_mem IndexEntry.key he)
      (hkey ▸ List.mem_map_of_mem IndexEntry.key ha)
  have hfperm : (s.index.filter p).Perm ((sorted.take 10).filter p ++ (sorted.drop 10).filter p) := by
    have h1 : (sorted.filter p).Perm (s.index.filter p) := List.Perm.filter p hperm
    have h2 : sorted.filter p = (sorted.take 10).filter p ++ (sorted.drop 10).filter p := by
      rw [← List.filter_append, htd]
    exact (h2 ▸ h1).symm
  constructor
  · rw [hidx]
    rw [hfperm.length_eq, htake_nil, hdrop_self]
    simp only [List.length_nil, List.length_append, List.length_drop, hlen]
    omega
  · intro e he f hf
    rw [hidx] at hf
    have hf' : f ∈ (sorted.take 10).filter p ++ (sorted.drop 10).filter p :=
      hfperm.subset hf
    rw [htake_nil, hdrop_self] at hf'
    simp only [List.nil_append] at hf'
    have hpw : List.Pairwise tsLe (sorted.take 10 ++ sorted.drop 10) := by
      rw [htd]
      exact hsorted
    exact (List.pairwise_append.mp hpw).2.2 e he f hf'

/-- Refreshing or inserting an index pair grows the index by at most one. -/
theorem updateCacheIndex_length {α : Type} (k : String) (t : Nat) (s : CacheState α) :
    (updateCacheIndex k t s).index.length = s.index.length ∨
    (updateCacheIndex k t s).index.length = s.index.length + 1 := by
  rw [updateCacheIndex]
  split
  · left; simp
  · right; simp

/-- C5: a `cacheAnalysis` put performed while the index holds at least
`maxCacheSize = 50` entries first evicts `Math.floor(50 * 0.2) = 10`
entries, those evicted are exactly the oldest by index timestamp (each
evicted entry is at least as old as every survivor), and the put leaves
strictly fewer entries than before: at most `n - 9` after the insert. -/
theorem c5_eviction_on_full_cache {α : Type} (s : CacheState α) (imageUri : String)
    (payload : α) (now : Nat)
    (hnd : (s.index.map IndexEntry.key).Nodup) (h50 : 50 ≤ s.index.length) :
    evictCount 50 = 10 ∧
    ((List.insertionSort tsLe s.index).take 10).length = 10 ∧
    (maintainCacheSize 50 s).index.length = s.index.length - 10 ∧
    (∀ e ∈ (List.insertionSort tsLe s.index).take 10,
      ∀ f ∈ (maintainCacheSize 50 s).index, e.timestamp ≤ f.timestamp) ∧
    (cacheAnalysis 50 DEFAULT_DURATION s imageUri payload now).index.length ≤
      s.index.length - 9 ∧
    (cacheAnalysis 50 DEFAULT_DURATION s imageUri payload now).index.length <
      s.index.length := by
  obtain ⟨hlen, hold⟩ := maintainCacheSize_evicts_oldest s hnd h50
  have htake : ((List.insertionSort tsLe s.index).take 10).length = 10 := by
    rw [List.length_take]
    have := (List.perm_insertionSort tsLe s.index).length_eq
    omega
  have hca : cacheAnalysis 50 DEFAULT_DURATION s imageUri payload now =
      updateCacheIndex (generateCacheKey imageUri) now
        { maintainCacheSize 50 s with
          store := fun k =>
            if k = generateCacheKey imageUri then
              some ⟨payload, now,
                if 0 < DEFAULT_DURATION then now + DEFAULT_DURATION else 0,
                generateImageHash imageUri⟩
            else (maintainCacheSize 50 s).store k } := rfl
  have hup := updateCacheIndex_length (generateCacheKey imageUri) now
    { maintainCacheSize 50 s with
      store := fun k =>
        if k = generateCacheKey imageUri then
          some ⟨payload, now,
            if 0 < DEFAULT_DURATION then now + DEFAULT_DURATION else 0,
            generateImageHash imageUri⟩
        else (maintainCacheSize 50 s).store k }
  rw [hca]
  refine ⟨rfl, htake, hlen, hold, ?_, ?_⟩
  · rcases hup with h | h <;> rw [h] <;> simp only [hlen] <;> omega
  · rcases hup with h | h <;> rw [h] <;> simp only [hlen] <;> omega

/-- A concrete full cache index: 50 distinct single-character keys with
increasing timestamps. -/
def evictionWitnessIndex : List IndexEntry :=
  (List.range 50).map (fun i => ⟨String.mk [Char.ofNat (65 + i)], i⟩)

/-- A concrete cache state whose index is full. -/
def evictionWitnessCache : CacheState Nat := ⟨fun _ => none, evictionWitnessIndex⟩

set_option maxRecDepth 8000 in
/-- Witness for C5: the eviction behavior on the concrete 50-entry cache. -/
theorem c5_eviction_on_full_cache_witness :
    evictCount 50 = 10 ∧
    ((List.insertionSort tsLe evictionWitnessCache.index).take 10).length = 10 ∧
    (maintainCacheSize 50 evictionWitnessCache).index.length =
      evictionWitnessCache.index.length - 10 ∧
    (∀ e ∈ (List.insertionSort tsLe evictionWitnessCache.index).take 10,
      ∀ f ∈ (maintainCacheSize 50 evictionWitnessCache).index, e.timestamp ≤ f.timestamp) ∧
    (cacheAnalysis 50 DEFAULT_DURATION evictionWitnessCache "img.jpg" 0 1000).index.length ≤
      evictionWitnessCache.index.length - 9 ∧
    (cacheAnalysis 50 DEFAULT_DURATION evictionWitnessCache "img.jpg" 0 1000).index.length <
      evictionWitnessCache.index.length :=
  c5_eviction_on_full_cache evictionWitnessCache "img.jpg" 0 1000 (by decide) (by decide)

/-- C9: `analyzeMuscleImage` never throws: every run returns either a
success envelope with no error, or a failure envelope carrying a classified
`APIError`; and whether the cache write succeeds or fails has no effect on
the returned envelope, so a storage failure never demotes a successful
analysis. -/
theorem c9_analyze_never_throws (cfg : AIServiceConfig) (env : AnalysisEnv)
    (cache : CacheState Json) :
    (((analyzeMuscleImage cfg env cache).1.success = true ∧
      (analyzeMuscleImage cfg env cache).1.error = none) ∨
     ((analyzeMuscleImage cfg env cache).1.success = false ∧
      ∃ e : APIError, (analyzeMuscleImage cfg env cache).1.error = some e)) ∧
    (∀ b b' : Bool,
      (analyzeMuscleImage cfg { env with storageOk := b } cache).1 =
        (analyzeMuscleImage cfg { env with storageOk := b' } cache).1) := by
  constructor
  · simp only [analyzeMuscleImage]
    split
    · exact Or.inr ⟨rfl, _, rfl⟩
    · split
      · exact Or.inl ⟨rfl, rfl⟩
      · split
        · exact Or.inr ⟨rfl, _, rfl⟩
        · split
          · exact Or.inr ⟨rfl, _, rfl⟩
          · split
            · exact Or.inr ⟨rfl, _, rfl⟩
            · exact Or.inl ⟨rfl, rfl⟩
  · intro b b'
    simp only [analyzeMuscleImage]
    split
    · rfl
    · split
      · rfl
      · split
        · rfl
        · split
          · rfl
          · split
            · rfl
            · rfl

end Muscle
